import Mathlib

/-!
Verification development for the in-memory Parse MockDB engine
(`src/parse-mockdb.js`).  The JavaScript code is shallowly embedded:
JS wire values become the inductive type `JVal`, the module-level mutable
variables `db`, `hooks`, `masks` become the explicit record `MockState`,
every handler threads the state it mutates, a thrown exception or a
rejected promise becomes the error side of `Except`.

Modelling conventions for JS heap semantics, used throughout:
* JS objects are finite ordered field lists (`List (String × JVal)`);
  property insertion updates an existing key in place, otherwise appends,
  exactly like JS own-property order.
* `JVal` is a pure value type, so `_.cloneDeep` is the identity and two
  structurally equal values are indistinguishable.  Wherever the source
  relies on *reference* equality (`===`/`==` between heap objects) the
  embedding notes which references can actually meet there: values coming
  from the JSON wire or from `_.cloneDeep` are freshly allocated, hence
  never reference-identical to a previously stored heap object.
* JS `NaN` is the dedicated constructor `JVal.nan`; a JS `Date` instance
  is `JVal.date (some ms)`, an invalid date is `JVal.date none`.
* Numbers are modelled as integers; every numeric value reaching the
  claims below is an integer, and no claim depends on float rounding.
-/

inductive JVal where
  | undef
  | null
  | nan
  | bool (b : Bool)
  | num (n : Int)
  | str (s : String)
  | date (ms : Option Int)
  | arr (elems : List JVal)
  | obj (fields : List (String × JVal))
  deriving Repr, Inhabited

namespace JVal

/-- JS truthiness: `undefined`, `null`, `false`, `0`, `NaN`, `""` are falsy,
every other value (including any heap object, array, or `Date`) is truthy. -/
def truthy : JVal → Bool
  | .undef => false
  | .null => false
  | .nan => false
  | .bool b => b
  | .num n => n != 0
  | .str s => s ≠ ""
  | .date _ => true
  | .arr _ => true
  | .obj _ => true

/-- First binding of a key in a JS object's field list. -/
def lookupField : List (String × JVal) → String → Option JVal
  | [], _ => none
  | (k, v) :: rest, key => if k == key then some v else lookupField rest key

/-- JS property write `o[k] = v`: update an existing key in place (keeping
its position), otherwise append the new key, as JS own-property order does. -/
def setField : List (String × JVal) → String → JVal → List (String × JVal)
  | [], key, v => [(key, v)]
  | (k, w) :: rest, key, v =>
    if k == key then (k, v) :: rest else (k, w) :: setField rest key v

/-- JS `delete o[k]`. -/
def removeField (fields : List (String × JVal)) (key : String) :
    List (String × JVal) :=
  fields.filter (fun kv => kv.1 ≠ key)

/-- Total JS member access `v[k]`, defined on every receiver on which JS
would not throw: missing keys give `undefined`, property access on a
primitive or on an array with a non-index key gives `undefined`.
Access on `undefined`/`null` (which throws in JS) is kept separate in
`getPropE`; `prop` is only used where the source has already guarded the
receiver, and returns `undef` on those receivers. -/
def prop (v : JVal) (key : String) : JVal :=
  match v with
  | .obj fields => (lookupField fields key).getD .undef
  | .arr elems =>
    if key == "length" then .num elems.length
    else match key.toNat? with
      | some i => (elems.get? i).getD .undef
      | none => .undef
  | .str s => if key == "length" then .num s.length else .undef
  | _ => (.undef)

/-- Decimal integer parse used to model JS string-to-number coercion for
the strings the engine actually compares (`trim`med decimal integers;
the empty string coerces to 0).  Non-numeric strings coerce to `NaN`,
here `none`. -/
def jsStringToInt (s : String) : Option Int :=
  let t := s.trim
  if t = "" then some 0
  else
    let (sign, digits) :=
      if t.startsWith "-" then ((-1 : Int), t.drop 1)
      else if t.startsWith "+" then ((1 : Int), t.drop 1)
      else ((1 : Int), t)
    if digits ≠ "" ∧ digits.all Char.isDigit then
      some (sign * (digits.toNat!))
    else none

/-- JS loose equality `==` restricted to the value pairs the engine can
meet.  `null`/`undefined` equal only each other; same-type primitives
compare by value; a number and a numeric string compare after coercion;
booleans coerce to numbers; `NaN` equals nothing.  A comparison in which
either side is a heap value (array, object, `Date`) is reference equality
in JS; distinct structural values are distinct references, and for
*identical* structural values the caller's next branch (lodash
`_.isEqual`) returns the same verdict, so the embedding answers `false`
for all heap pairs. -/
def jsLooseEq : JVal → JVal → Bool
  | .null, .null => true
  | .undef, .undef => true
  | .null, .undef => true
  | .undef, .null => true
  | .num a, .num b => a == b
  | .str a, .str b => a == b
  | .bool a, .bool b => a == b
  | .bool a, .num b => (if a then (1 : Int) else 0) == b
  | .num a, .bool b => a == (if b then (1 : Int) else 0)
  | .num a, .str s => (jsStringToInt s) == some a
  | .str s, .num a => (jsStringToInt s) == some a
  | _, _ => false

/-- JS strict equality `===` as `Array.prototype.indexOf` applies it inside
the `AddUnique` operator: primitives compare by value with no coercion,
`NaN` matches nothing.  Composite operands there are wire-deserialized
objects being compared against stored or just-pushed entries; JSON
deserialization allocates fresh heap objects, so those comparisons are
between distinct references and are `false`. -/
def jsStrictEqWire : JVal → JVal → Bool
  | .null, .null => true
  | .undef, .undef => true
  | .bool a, .bool b => a == b
  | .num a, .num b => a == b
  | .str a, .str b => a == b
  | _, _ => false

end JVal

/-- Errors of the embedded engine: a thrown JS exception (carrying the JS
error message, or naming the kind of `TypeError`), or a rejected promise
carrying the hook's arbitrary rejection value. -/
inductive MockError where
  | jsError (msg : String)
  | typeError (msg : String)
  | hookRejection (e : JVal)
  | unmodelled (what : String)
  deriving Repr

/-- JS member access `v[k]` as the source performs it: throws a `TypeError`
when the receiver is `undefined` or `null`, otherwise as `JVal.prop`. -/
def getPropE (v : JVal) (key : String) : Except MockError JVal :=
  match v with
  | .undef => .error (.typeError ("cannot read properties of undefined: " ++ key))
  | .null => .error (.typeError ("cannot read properties of null: " ++ key))
  | _ => .ok (v.prop key)

/-- Lodash `_.isEqual`: deep structural equality.  `NaN` equals `NaN`
(SameValueZero), `Date` instances compare by their time value, arrays
pairwise, objects by key set (order-insensitive) and value; the engine
never builds a JS object with a duplicate own key, so field lists are
duplicate-free. -/
def structEq : JVal → JVal → Bool
  | .undef, .undef => true
  | .null, .null => true
  | .nan, .nan => true
  | .bool a, .bool b => a == b
  | .num a, .num b => a == b
  | .str a, .str b => a == b
  | .date a, .date b => a == b
  | .arr xs, .arr ys =>
      xs.length == ys.length &&
      ((xs.zip ys).attach.all fun p => structEq p.1.1 p.1.2)
  | .obj fs, .obj gs =>
      fs.length == gs.length &&
      (fs.attach.all fun kv =>
        match JVal.lookupField gs kv.1.1 with
        | some w => structEq kv.1.2 w
        | none => false)
  | _, _ => false
termination_by a _ => sizeOf a
decreasing_by
  · have h1 : p.1.1 ∈ xs := (List.of_mem_zip p.2).1
    have h2 := List.sizeOf_lt_of_mem h1
    simp only [JVal.arr.sizeOf_spec]
    omega
  · have h2 := List.sizeOf_lt_of_mem kv.2
    have h3 : sizeOf kv.1.2 < sizeOf kv.1 := by
      obtain ⟨⟨k, v⟩, hk⟩ := kv
      simp only [Prod.mk.sizeOf_spec]
      omega
    simp only [JVal.obj.sizeOf_spec]
    omega

/-! ## Dates

The engine stores `createdAt`/`updatedAt` as JS `Date` instances and
deserializes Date-shaped wire values with `new Date(iso)`.  The embedding
models the ECMA-262 parse of the ISO-8601 UTC ("Z"-suffixed) date-time
format, which is the format the SDK's wire encoding and `toJSON` emit; a
string outside this subset parses to an invalid date. -/

def isLeapYear (y : Nat) : Bool :=
  (y % 4 == 0 && y % 100 != 0) || y % 400 == 0

def daysInMonth (m : Nat) (leap : Bool) : Nat :=
  match m with
  | 1 => 31 | 2 => if leap then 29 else 28 | 3 => 31 | 4 => 30
  | 5 => 31 | 6 => 30 | 7 => 31 | 8 => 31 | 9 => 30 | 10 => 31
  | 11 => 30 | _ => 31

def daysBeforeMonth (m : Nat) (leap : Bool) : Nat :=
  let base := match m with
    | 1 => 0 | 2 => 31 | 3 => 59 | 4 => 90 | 5 => 120 | 6 => 151
    | 7 => 181 | 8 => 212 | 9 => 243 | 10 => 273 | 11 => 304 | _ => 334
  if leap && m > 2 then base + 1 else base

/-- Days from 0001-01-01 to the start of year `y` (proleptic Gregorian). -/
def daysBeforeYear (y : Nat) : Nat :=
  (y - 1) * 365 + (y - 1) / 4 - (y - 1) / 100 + (y - 1) / 400

/-- Milliseconds since the Unix epoch of a UTC civil date-time
(719162 days lie between 0001-01-01 and 1970-01-01). -/
def civilToEpochMs (y mo da hh mi ss ms : Nat) : Int :=
  (((daysBeforeYear y + daysBeforeMonth mo (isLeapYear y) + (da - 1) : Nat) : Int)
      - 719162) * 86400000
    + (hh : Int) * 3600000 + (mi : Int) * 60000 + (ss : Int) * 1000 + (ms : Int)

def digitVal (c : Char) : Nat := c.toNat - 48

def digit2 (a b : Char) : Option Nat :=
  if a.isDigit && b.isDigit then some (digitVal a * 10 + digitVal b) else none

def digit3 (a b c : Char) : Option Nat :=
  if a.isDigit && b.isDigit && c.isDigit then
    some (digitVal a * 100 + digitVal b * 10 + digitVal c)
  else none

def digit4 (a b c d : Char) : Option Nat :=
  if a.isDigit && b.isDigit && c.isDigit && d.isDigit then
    some (digitVal a * 1000 + digitVal b * 100 + digitVal c * 10 + digitVal d)
  else none

/-- The instant denoted by an ISO-8601 UTC date-time string
`YYYY-MM-DDTHH:MM:SSZ` or `YYYY-MM-DDTHH:MM:SS.mmmZ`, as `Date.parse`
computes it; `none` for a string outside this subset (invalid date). -/
def parseISOInstant (s : String) : Option Int :=
  match s.toList with
  | y1 :: y2 :: y3 :: y4 :: '-' :: m1 :: m2 :: '-' :: d1 :: d2 :: 'T' ::
      h1 :: h2 :: ':' :: n1 :: n2 :: ':' :: s1 :: s2 :: rest => do
    let y ← digit4 y1 y2 y3 y4
    let mo ← digit2 m1 m2
    let da ← digit2 d1 d2
    let hh ← digit2 h1 h2
    let mi ← digit2 n1 n2
    let ss ← digit2 s1 s2
    let ms ← match rest with
      | ['Z'] => some 0
      | ['.', a, b, c, 'Z'] => digit3 a b c
      | _ => none
    if 1 ≤ mo ∧ mo ≤ 12 ∧ 1 ≤ da ∧ da ≤ daysInMonth mo (isLeapYear y) ∧
        hh ≤ 23 ∧ mi ≤ 59 ∧ ss ≤ 59 then
      some (civilToEpochMs y mo da hh mi ss ms)
    else none
  | _ => none

/-- Civil date from days since the Unix epoch (proleptic Gregorian). -/
def civilFromDays (days : Int) : Int × Int × Int :=
  let z := days + 719468
  let era := Int.fdiv z 146097
  let doe := z - era * 146097
  let yoe := Int.fdiv (doe - Int.fdiv doe 1460 + Int.fdiv doe 36524 - Int.fdiv doe 146096) 365
  let y := yoe + era * 400
  let doy := doe - (365 * yoe + Int.fdiv yoe 4 - Int.fdiv yoe 100)
  let mp := Int.fdiv (5 * doy + 2) 153
  let da := doy - Int.fdiv (153 * mp + 2) 5 + 1
  let mo := mp + (if mp < 10 then 3 else -9)
  (y + (if mo ≤ 2 then 1 else 0), mo, da)

/-- Left-pad the decimal rendering of a (non-negative) number to `width`. -/
def padNum (width : Nat) (n : Int) : String :=
  let s := toString n.toNat
  let pad := width - s.length
  String.mk (List.replicate pad '0') ++ s

/-- `Date.prototype.toISOString`, for the timestamps the engine produces
(years 0–9999). -/
def dateToISO (ms : Int) : String :=
  let day := Int.fdiv ms 86400000
  let rem := ms - day * 86400000
  let c := civilFromDays day
  let hh := Int.fdiv rem 3600000
  let rem2 := rem - hh * 3600000
  let mi := Int.fdiv rem2 60000
  let rem3 := rem2 - mi * 60000
  let ss := Int.fdiv rem3 1000
  let msp := rem3 - ss * 1000
  padNum 4 c.1 ++ "-" ++ padNum 2 c.2.1 ++ "-" ++ padNum 2 c.2.2 ++ "T" ++
    padNum 2 hh ++ ":" ++ padNum 2 mi ++ ":" ++ padNum 2 ss ++ "." ++
    padNum 3 msp ++ "Z"

/-- `Date.prototype.toJSON`: the ISO rendering, or JS `null` for an
invalid date. -/
def dateToJSONVal : Option Int → JVal
  | some ms => .str (dateToISO ms)
  | none => .null

/-- `new Date(v)`: parse a string, take a number as epoch milliseconds,
copy a `Date`; any other argument gives an invalid date. -/
def jsNewDate (v : JVal) : JVal :=
  match v with
  | .str s => .date (parseISOInstant s)
  | .num n => .date (some n)
  | .date m => .date m
  | _ => .date none

namespace JVal

def isUndef : JVal → Bool
  | .undef => true
  | _ => false

/-- JS `typeof v === "object"` (true for objects, arrays, `Date`s and
`null`). -/
def typeofIsObject : JVal → Bool
  | .obj _ => true
  | .arr _ => true
  | .date _ => true
  | .null => true
  | _ => false

end JVal

/-- `isOp`: `object && typeof object === "object" && "__op" in object`. -/
def isOp (v : JVal) : Bool :=
  match v with
  | .obj fields => fields.any (fun kv => kv.1 == "__op")
  | _ => false

/-- `isPointer`: `object && object.__type === "Pointer"`. -/
def isPointer (v : JVal) : Bool :=
  v.truthy && (match v.prop "__type" with | .str t => t == "Pointer" | _ => false)

/-- `isDate`: `object && object.__type === "Date"` (a Date-shaped wire
value, not a `Date` instance). -/
def isDate (v : JVal) : Bool :=
  v.truthy && (match v.prop "__type" with | .str t => t == "Date" | _ => false)

/-- `deserializeQueryParam`: a Date-shaped wire value becomes a `Date`
instance via `new Date(param.iso)`; everything else passes through. -/
def deserializeQueryParam (param : JVal) : JVal :=
  if param.truthy && param.typeofIsObject then
    if (match param.prop "__type" with | .str t => t == "Date" | _ => false) then
      jsNewDate (param.prop "iso")
    else param
  else param

/-- `===` between two heap references: true only at the same allocation.
Used to embed the source's comparison of the two `Date` objects freshly
allocated by `deserializeQueryParam`; the `Nat` component stands for the
allocation address. -/
def jsRefEq (a b : Nat × JVal) : Bool := a.1 == b.1

/-- `objectsAreEqual` from the source.  Branches, in order:
1. `obj1 == obj2` — loose equality (`JVal.jsLooseEq`);
2. `!obj1 || !obj2` — a falsy side (not caught above) never equals;
3. `_.isEqual` — lodash deep equality (`structEq`);
4. both carry an `objectId` that is not `undefined` and loosely equal;
5. `obj1` an array — some element equals `obj2`;
6. both Date-shaped — `deserializeQueryParam(obj1) === deserializeQueryParam(obj2)`:
   each call allocates a fresh `Date` heap object via `new Date(iso)`, so
   this strict equality compares two distinct references (allocation
   indices 0 and 1 below) and is false. -/
def objectsAreEqual (obj1 obj2 : JVal) : Bool :=
  if JVal.jsLooseEq obj1 obj2 then true
  else if !obj1.truthy || !obj2.truthy then false
  else if structEq obj1 obj2 then true
  else if !(obj1.prop "objectId").isUndef &&
      JVal.jsLooseEq (obj1.prop "objectId") (obj2.prop "objectId") then true
  else
    match obj1 with
    | .arr xs => xs.attach.any fun x => objectsAreEqual x.1 obj2
    | _ =>
      if isDate obj1 && isDate obj2 then
        jsRefEq (0, jsNewDate (obj1.prop "iso")) (1, jsNewDate (obj2.prop "iso"))
      else false
termination_by sizeOf obj1
decreasing_by
  have h2 := List.sizeOf_lt_of_mem x.2
  simp only [JVal.arr.sizeOf_spec]
  omega

/-! ## JS string/number coercion for `+` (the `Increment` operator) -/

/-- JS `String(v)`: primitive renderings; an array renders as its joined
elements (`Array.prototype.toString`, with `null`/`undefined` elements
blank), a plain object as `[object Object]`, a `Date` via its ECMA-262
UTC rendering. -/
def jsToString (v : JVal) : String :=
  match v with
  | .undef => "undefined"
  | .null => "null"
  | .nan => "NaN"
  | .bool b => if b then "true" else "false"
  | .num n => toString n
  | .str s => s
  | .date none => "Invalid Date"
  | .date (some ms) =>
    let day := Int.fdiv ms 86400000
    let rem := ms - day * 86400000
    let c := civilFromDays day
    let wd := match (Int.emod (day + 4) 7).toNat with
      | 0 => "Sun" | 1 => "Mon" | 2 => "Tue" | 3 => "Wed" | 4 => "Thu"
      | 5 => "Fri" | _ => "Sat"
    let mn := match c.2.1.toNat with
      | 1 => "Jan" | 2 => "Feb" | 3 => "Mar" | 4 => "Apr" | 5 => "May"
      | 6 => "Jun" | 7 => "Jul" | 8 => "Aug" | 9 => "Sep" | 10 => "Oct"
      | 11 => "Nov" | _ => "Dec"
    wd ++ " " ++ mn ++ " " ++ padNum 2 c.2.2 ++ " " ++ padNum 4 c.1 ++ " " ++
      padNum 2 (Int.fdiv rem 3600000) ++ ":" ++
      padNum 2 (Int.emod (Int.fdiv rem 60000) 60) ++ ":" ++
      padNum 2 (Int.emod (Int.fdiv rem 1000) 60) ++
      " GMT+0000 (Coordinated Universal Time)"
  | .arr xs => String.intercalate ","
      (xs.attach.map fun x => match x.1 with
        | .null => ""
        | .undef => ""
        | _ => jsToString x.1)
  | .obj _ => "[object Object]"
termination_by sizeOf v
decreasing_by
  have h2 := List.sizeOf_lt_of_mem x.2
  simp only [JVal.arr.sizeOf_spec]
  omega

/-- ToPrimitive with the default hint, as `+` applies it: a plain object
becomes `[object Object]`, an array its joined rendering, a `Date` its
string rendering; primitives pass through. -/
def toPrimitiveDefault (v : JVal) : JVal :=
  match v with
  | .obj _ => .str (jsToString v)
  | .arr _ => .str (jsToString v)
  | .date _ => .str (jsToString v)
  | _ => v

/-- ToNumber on a primitive: `null` is 0, `undefined` is `NaN`, booleans
are 0/1, strings parse as decimal (else `NaN`). -/
def jsToNumber (v : JVal) : JVal :=
  match v with
  | .num n => .num n
  | .nan => .nan
  | .bool b => .num (if b then 1 else 0)
  | .null => .num 0
  | .undef => .nan
  | .str s => match JVal.jsStringToInt s with
    | some n => .num n
    | none => .nan
  | _ => .nan

/-- JS `+`: after ToPrimitive, if either side is a string the result is
string concatenation, otherwise numeric addition with `NaN` absorbing. -/
def jsPlus (a b : JVal) : JVal :=
  let pa := toPrimitiveDefault a
  let pb := toPrimitiveDefault b
  match pa, pb with
  | .str s, _ => .str (s ++ jsToString pb)
  | _, .str s => .str (jsToString pa ++ s)
  | _, _ =>
    match jsToNumber pa, jsToNumber pb with
    | .num x, .num y => .num (x + y)
    | _, _ => .nan

/-! ## Store state

The module-level mutable variables `db`, `hooks` and `masks` become an
explicit state record.  Handlers return the successor state together with
the operation's outcome.  `getCollection`/`getMask` lazily materialize an
empty collection/mask set for an unknown class; that side effect never
changes any record or mask membership, so the embedding keeps the tables
keyed only by classes that were actually written. -/

/-- Association-list lookup (JS `table[key]`, `undefined` becoming
`none`). -/
def assocFind {α : Type} : List (String × α) → String → Option α
  | [], _ => none
  | (k, v) :: rest, key => if k == key then some v else assocFind rest key

/-- Association-list write `table[key] = v` (JS own-property order:
update in place, else append). -/
def assocSet {α : Type} : List (String × α) → String → α → List (String × α)
  | [], key, v => [(key, v)]
  | (k, w) :: rest, key, v =>
    if k == key then (k, v) :: rest else (k, w) :: assocSet rest key v

/-- A hook callback: receives the hydrated model's JSON data and either
resolves (possibly with a replacement object's JSON, `undef` meaning "no
override") or rejects with an arbitrary error value.  The
`makeRequestObject` wrapper and the `Parse.Object` hydration are external
SDK plumbing. -/
inductive HookResult where
  | resolve (value : JVal)
  | reject (e : JVal)

structure MockState where
  db : List (String × List (String × JVal))
  hooks : List (String × List (String × (JVal → HookResult)))
  masks : List (String × List String)

/-- The committed record of class `cls` with id `id`, if any. -/
def getRecord (s : MockState) (cls id : String) : Option JVal :=
  assocFind ((assocFind s.db cls).getD []) id

def setRecord (db : List (String × List (String × JVal))) (cls id : String)
    (rec : JVal) : List (String × List (String × JVal)) :=
  assocSet db cls (assocSet ((assocFind db cls).getD []) id rec)

/-- JS `delete collection[objectId]`. -/
def removeRecord (db : List (String × List (String × JVal))) (cls id : String) :
    List (String × List (String × JVal)) :=
  assocSet db cls (((assocFind db cls).getD []).filter fun kv => kv.1 ≠ id)

/-- The class's field mask, `Array.from(getMask(className))` order
(insertion order of a JS `Set`). -/
def getMaskList (masks : List (String × List String)) (cls : String) :
    List String :=
  (assocFind masks cls).getD []

/-- `Set.prototype.add` on the class's mask. -/
def addMaskKey (masks : List (String × List String)) (cls key : String) :
    List (String × List String) :=
  let cur := getMaskList masks cls
  assocSet masks cls (if cur.contains key then cur else cur ++ [key])

/-- `cleanUp`: `db = {}; hooks = {};` — the `masks` module variable is
*not* reassigned and keeps its contents. -/
def cleanUp (s : MockState) : MockState :=
  { db := [], hooks := [], masks := s.masks }

/-- `registerHook`: at most one callback per (class, kind); re-registering
replaces. -/
def registerHook (s : MockState) (className hookType : String)
    (hookFn : JVal → HookResult) : MockState :=
  let classHooks := assocSet ((assocFind s.hooks className).getD []) hookType hookFn
  { s with hooks := assocSet s.hooks className classHooks }

/-- `getHook`: `hooks[className] && hooks[className][hookType]` (a
registered callback is always truthy). -/
def getHook (s : MockState) (className hookType : String) :
    Option (JVal → HookResult) :=
  match assocFind s.hooks className with
  | some m => assocFind m hookType
  | none => none

/-- The own fields of a JS object; `Object.assign`'s view of a source
that is `undefined`/`null` contributes nothing. -/
def objFieldsOf (v : JVal) : List (String × JVal) :=
  match v with
  | .obj fs => fs
  | _ => []

/-- `Object.assign(target, src)` on field lists. -/
def assignFields (target src : List (String × JVal)) : List (String × JVal) :=
  src.foldl (fun acc kv => JVal.setField acc kv.1 kv.2) target

/-- `_.omit(v, keys)`: drop the listed keys; on a non-object lodash
returns an empty object. -/
def omitKeys (v : JVal) (keys : List String) : JVal :=
  match v with
  | .obj fs => .obj (fs.filter fun kv => !(keys.contains kv.1))
  | _ => .obj []

/-! ## Hook runner -/

/-- `runHook`.  With no registered hook, resolves with `data` unchanged.
Otherwise the hook runs on `modelData = Object.assign(new Object, data,
{className})`; a rejection propagates as the promise's failure.  On
resolution, for `beforeSave` with a truthy override value the override's
JSON is adopted; otherwise the hydrated model proceeds — the
`Parse.Object.fromJSON`/`toJSON` round trip is external SDK code and is
modelled as the identity on `modelData`.  Either way `ACL` is omitted
from the result. -/
def runHook (s : MockState) (className hookType : String) (data : JVal) :
    Except MockError JVal :=
  match getHook s className hookType with
  | none => .ok data
  | some hook =>
    let modelData : JVal :=
      .obj (JVal.setField (objFieldsOf data) "className" (.str className))
    match hook modelData with
    | .reject e => .error (.hookRejection e)
    | .resolve ov =>
      let objectToProceedWith :=
        if hookType == "beforeSave" && ov.truthy then ov else modelData
      .ok (omitKeys objectToProceedWith ["ACL"])

/-! ## Mutator -/

def UPDATE_OPERATOR_NAMES : List String :=
  ["Increment", "Add", "AddUnique", "Remove", "Delete",
   "AddRelation", "RemoveRelation"]

def MASKED_UPDATE_OPS : List String := ["AddRelation", "RemoveRelation"]

/-- `ensureArray`: a falsy value at `key` (including an absent one) is
replaced by a fresh empty array; a truthy non-array throws. -/
def ensureArray (fields : List (String × JVal)) (key : String) :
    Except MockError (List (String × JVal)) :=
  let cur := (JVal.lookupField fields key).getD .undef
  if !cur.truthy then .ok (JVal.setField fields key (.arr []))
  else match cur with
    | .arr _ => .ok fields
    | _ => .error (.jsError "Can't perform array operaton on non-array field")

/-- The elements of the operator's `objects` parameter;
`value.objects.forEach` throws a `TypeError` unless it is an array. -/
def opObjects (value : JVal) : Except MockError (List JVal) :=
  match value.prop "objects" with
  | .arr objs => .ok objs
  | _ => .error (.typeError "forEach is not a function")

/-- One `UPDATE_OPERATORS` entry applied to the draft.  Returns the draft
as mutated up to the point of a throw (mutations preceding a thrown
`TypeError` persist on the draft object). -/
def applyOneOp (draft : List (String × JVal)) (key : String) (value : JVal)
    (op : String) : List (String × JVal) × Option MockError :=
  match op with
  | "Increment" =>
    let cur := (JVal.lookupField draft key).getD .undef
    let cur := if cur.isUndef then JVal.num 0 else cur
    (JVal.setField draft key (jsPlus cur (value.prop "amount")), none)
  | "Add" =>
    match ensureArray draft key with
    | .error e => (draft, some e)
    | .ok d2 =>
      match opObjects value with
      | .error e => (d2, some e)
      | .ok objs =>
        let cur := match (JVal.lookupField d2 key).getD .undef with
          | .arr xs => xs | _ => []
        (JVal.setField d2 key (.arr (cur ++ objs)), none)
  | "AddUnique" =>
    match ensureArray draft key with
    | .error e => (draft, some e)
    | .ok d2 =>
      match opObjects value with
      | .error e => (d2, some e)
      | .ok objs =>
        let cur := match (JVal.lookupField d2 key).getD .undef with
          | .arr xs => xs | _ => []
        let merged := objs.foldl
          (fun acc o => if acc.any (fun x => JVal.jsStrictEqWire x o) then acc
            else acc ++ [o]) cur
        (JVal.setField d2 key (.arr merged), none)
  | "Remove" =>
    match ensureArray draft key with
    | .error e => (draft, some e)
    | .ok d2 =>
      match opObjects value with
      | .error e => (d2, some e)
      | .ok objs =>
        let cur := match (JVal.lookupField d2 key).getD .undef with
          | .arr xs => xs | _ => []
        let remaining := objs.foldl
          (fun acc o => acc.filter fun item => !objectsAreEqual item o) cur
        (JVal.setField d2 key (.arr remaining), none)
  | "Delete" => (JVal.removeField draft key, none)
  | "AddRelation" =>
    match ensureArray draft key with
    | .error e => (draft, some e)
    | .ok d2 =>
      match opObjects value with
      | .error e => (d2, some e)
      | .ok objs =>
        let cur := match (JVal.lookupField d2 key).getD .undef with
          | .arr xs => xs | _ => []
        (JVal.setField d2 key (.arr (cur ++ objs)), none)
  | "RemoveRelation" =>
    match ensureArray draft key with
    | .error e => (draft, some e)
    | .ok d2 =>
      match opObjects value with
      | .error e => (d2, some e)
      | .ok objs =>
        let cur := match (JVal.lookupField d2 key).getD .undef with
          | .arr xs => xs | _ => []
        let remaining := objs.foldl
          (fun acc o => acc.filter fun item => !objectsAreEqual item o) cur
        (JVal.setField d2 key (.arr remaining), none)
  | _ => (draft, some (.jsError "unreachable: unknown operator is rejected by applyOps"))

/-- `applyOps`: applies each extracted op in order; an operator not in
`UPDATE_OPERATORS` throws `Unknown update operator:<key>`.  The loop
mutates the draft and the class's mask as it goes, so on a throw the
returned draft and mask table keep every change made by the preceding
iterations. -/
def applyOps (draft : List (String × JVal)) (ops : List (String × JVal))
    (className : String) (masks : List (String × List String)) :
    List (String × JVal) × List (String × List String) × Option MockError :=
  match ops with
  | [] => (draft, masks, none)
  | (key, value) :: rest =>
    match value.prop "__op" with
    | .str op =>
      if UPDATE_OPERATOR_NAMES.contains op then
        match applyOneOp draft key value op with
        | (d2, some e) => (d2, masks, some e)
        | (d2, none) =>
          let masks2 :=
            if MASKED_UPDATE_OPS.contains op then addMaskKey masks className key
            else masks
          applyOps d2 rest className masks2
      else (draft, masks, some (.jsError ("Unknown update operator:" ++ key)))
    | _ => (draft, masks, some (.jsError ("Unknown update operator:" ++ key)))

/-- `extractOps`: removes every op-shaped field from the draft and
returns the ops (first) and the remaining literal fields (second), both
in original field order. -/
def extractOps (fields : List (String × JVal)) :
    List (String × JVal) × List (String × JVal) :=
  (fields.filter (fun kv => isOp kv.2), fields.filter (fun kv => !isOp kv.2))

/-! ## Create / Update / Delete handlers -/

/-- `handlePostRequest` (create).  `newId` is the fresh `_.uniqueId()`,
`now` the epoch milliseconds of `new Date()`. -/
def handlePostRequest (s : MockState) (className : String) (reqData : JVal)
    (newId : String) (now : Int) : MockState × Except MockError (Nat × JVal) :=
  match runHook s className "beforeSave" reqData with
  | .error e => (s, .error e)
  | .ok result =>
    let (ops, rest) := extractOps (objFieldsOf result)
    let newObject := assignFields rest
      [("objectId", .str newId), ("createdAt", .date (some now)),
       ("updatedAt", .date (some now))]
    match applyOps newObject ops className s.masks with
    | (_, masks2, some e) => ({ s with masks := masks2 }, .error e)
    | (newObject, masks2, none) =>
      let toOmit := "updatedAt" :: getMaskList masks2 className
      let db2 := setRecord s.db className newId (.obj newObject)
      -- response createdAt: `result.createdAt.toJSON()`; `result` aliases
      -- `newObject`, whose createdAt is the Date allocated above.
      let response := JVal.obj (JVal.setField
        (objFieldsOf (omitKeys (.obj newObject) toOmit))
        "createdAt" (dateToJSONVal (some now)))
      ({ s with db := db2, masks := masks2 }, .ok (201, response))

/-- `handlePutRequest` (update). -/
def handlePutRequest (s : MockState) (className objectId : String)
    (reqData : JVal) (now : Int) : MockState × Except MockError (Nat × JVal) :=
  let currentObject := getRecord s className objectId
  let data := if reqData.truthy then reqData else .obj []
  let (ops, dataRest) := extractOps (objFieldsOf data)
  match currentObject with
  | none =>
    (s, .ok (404, .obj [("code", .num 101), ("error", .str "object not found for put")]))
  | some cur =>
    let updatedObject := assignFields (assignFields (objFieldsOf cur) dataRest)
      [("updatedAt", .date (some now))]
    match applyOps updatedObject ops className s.masks with
    | (_, masks2, some e) => ({ s with masks := masks2 }, .error e)
    | (updatedObject, masks2, none) =>
      let toOmit := ["createdAt", "objectId"] ++ getMaskList masks2 className
      match runHook { s with masks := masks2 } className "beforeSave"
          (.obj updatedObject) with
      | .error e => ({ s with masks := masks2 }, .error e)
      | .ok result =>
        -- commit: `collection[request.objectId] = updatedObject` — the
        -- pre-hook draft, not the hook's `result`.
        let db2 := setRecord s.db className objectId (.obj updatedObject)
        let response := JVal.obj (JVal.setField
          (objFieldsOf (omitKeys result toOmit))
          "updatedAt" (.date (some now)))
        ({ s with db := db2, masks := masks2 }, .ok (200, response))

/-- `handleDeleteRequest`.  There is no point-lookup 404: a missing id
leaves `objToDelete` as `undefined`, the beforeDelete hook (if any) still
runs, and the `delete` on the collection is a no-op. -/
def handleDeleteRequest (s : MockState) (className objectId : String) :
    MockState × Except MockError (Nat × JVal) :=
  let objToDelete := (getRecord s className objectId).getD .undef
  match runHook s className "beforeDelete" objToDelete with
  | .error e => (s, .error e)
  | .ok _ =>
    ({ s with db := removeRecord s.db className objectId }, .ok (200, .obj []))

/-! ## Matcher

`recursivelyMatch`/`queryFilter`/`evaluateObject`/`QUERY_OPERATORS`.
The matcher only reads the store, so it takes the `db` table directly.
The `$regex`, `$select` and `$inQuery` operators (a regex engine and
recursive sub-queries) and the `$relatedTo` *indirect* path (the
`redirectClassNameForKey` machinery going through the module-level
`indirect`/`outOfBandResults` slots) are outside every claim's scope and
are embedded as the explicit `MockError.unmodelled` outcome; the
membership tests that *dispatch* on operator names use the full name
table, so clause classification is faithful. -/

def QUERY_OPERATOR_NAMES : List String :=
  ["$exists", "$in", "$nin", "$eq", "$ne", "$lt", "$lte", "$gt", "$gte",
   "$regex", "$select", "$inQuery", "$all", "$relatedTo"]

/-- ToPrimitive with the number hint, as the relational operators apply
it: a `Date` becomes its time value, other heap values their string
rendering. -/
def relationalToPrim (v : JVal) : JVal :=
  match v with
  | .date (some ms) => .num ms
  | .date none => .nan
  | .obj _ => .str (jsToString v)
  | .arr _ => .str (jsToString v)
  | _ => v

/-- JS `<`: string/string compares lexicographically, otherwise both
sides convert to numbers and `NaN` makes the comparison false. -/
def jsLess (a b : JVal) : Bool :=
  match relationalToPrim a, relationalToPrim b with
  | .str x, .str y => decide (x < y)
  | pa, pb =>
    match jsToNumber pa, jsToNumber pb with
    | .num x, .num y => decide (x < y)
    | _, _ => false

/-- JS `<=` (`!(b < a)` with `NaN` operands making it false). -/
def jsLessEq (a b : JVal) : Bool :=
  match relationalToPrim a, relationalToPrim b with
  | .str x, .str y => decide (x ≤ y)
  | pa, pb =>
    match jsToNumber pa, jsToNumber pb with
    | .num x, .num y => decide (x ≤ y)
    | _, _ => false

/-- The values lodash `_.some`/`_.every` iterate over: array elements,
an object's own values, nothing for a non-collection. -/
def lodashValues (v : JVal) : List JVal :=
  match v with
  | .arr xs => xs
  | .obj fs => fs.map (fun kv => kv.2)
  | _ => []

/-- One `QUERY_OPERATORS` entry: `receiver` is the bound `this` (the
deserialized field value, or the whole record for the whole-record
operators), `param` the constraint value. -/
def applyQueryOperator (db : List (String × List (String × JVal)))
    (name : String) (receiver param : JVal) : Except MockError Bool :=
  match name with
  | "$exists" =>
    -- `!!this === value`
    .ok (match param with | .bool b => receiver.truthy == b | _ => false)
  | "$in" => .ok ((lodashValues param).any fun v => objectsAreEqual receiver v)
  | "$nin" => .ok ((lodashValues param).all fun v => !objectsAreEqual receiver v)
  | "$eq" => .ok (objectsAreEqual receiver param)
  | "$ne" => .ok (!objectsAreEqual receiver param)
  | "$lt" => .ok (jsLess receiver param)
  | "$lte" => .ok (jsLessEq receiver param)
  | "$gt" => .ok (jsLess param receiver)
  | "$gte" => .ok (jsLessEq param receiver)
  | "$regex" => .error (.unmodelled "$regex")
  | "$select" => .error (.unmodelled "$select")
  | "$inQuery" => .error (.unmodelled "$inQuery")
  | "$all" =>
    -- `_.every(value, obj1 => _.some(this, obj2 => objectsAreEqual(obj1, obj2)))`
    .ok ((lodashValues param).all fun o1 =>
      (lodashValues receiver).any fun o2 => objectsAreEqual o1 o2)
  | "$relatedTo" => do
    -- direct path only: the indirect path (module-level redirect slots)
    -- is cut off before matching begins, see `handleGetRequest`.
    let object ← getPropE param "object"
    let cn ← getPropE object "className"
    let id ← getPropE object "objectId"
    let relatedKey ← getPropE param "key"
    let rec? := assocFind ((assocFind db (jsToString cn)).getD []) (jsToString id)
    let relations ← getPropE (rec?.getD .undef) (jsToString relatedKey)
    .ok (objectsAreEqual relations receiver)
  | _ => .error (.unmodelled ("query operator " ++ name))

/-- Dotted-path descent: for `a.b.c`, walk `a` then `b`; a falsy
intermediate makes the whole key fail (`none`), otherwise the final
receiver and last segment remain. -/
def descendPath (object : JVal) : List String → Option (JVal × String)
  | [] => none
  | [k] => some (object, k)
  | k :: rest =>
    if !(object.prop k).truthy then none
    else descendPath (object.prop k) rest

/-- The (key, value) pairs lodash `_.reduce` iterates for the inner
constraint loop: an object's own fields, an array's elements keyed by
index, nothing for `null` or a non-collection. -/
def lodashPairs (v : JVal) : List (String × JVal) :=
  match v with
  | .obj fs => fs
  | .arr xs => (xs.enum.map fun p => (toString p.1, p.2))
  | _ => []

/-- `evaluateObject`. -/
def evaluateObject (db : List (String × List (String × JVal)))
    (object : JVal) (whereParams : JVal) (key : String) :
    Except MockError Bool :=
  match descendPath object (key.splitOn ".") with
  | none => .ok false
  | some (object, key) =>
    if whereParams.typeofIsObject then
      if isPointer whereParams || isDate whereParams then
        applyQueryOperator db "$eq" (object.prop key) whereParams
      else if QUERY_OPERATOR_NAMES.contains key then
        applyQueryOperator db key object whereParams
      else
        (lodashPairs whereParams).foldlM
          (fun acc kv => do
            let keyValue := deserializeQueryParam (object.prop key)
            let param := deserializeQueryParam kv.2
            if QUERY_OPERATOR_NAMES.contains kv.1 then do
              let m ← applyQueryOperator db kv.1 keyValue param
              pure (acc && m)
            else do
              let sub ← getPropE keyValue kv.1
              let m ← applyQueryOperator db "$eq" sub param
              pure (acc && m))
          true
    else
      applyQueryOperator db "$eq" (object.prop key) whereParams

theorem lookupField_sizeOf {fs : List (String × JVal)} {k : String} {v : JVal}
    (h : JVal.lookupField fs k = some v) : sizeOf v < sizeOf (JVal.obj fs) := by
  induction fs with
  | nil => simp [JVal.lookupField] at h
  | cons kv rest ih =>
    rw [show JVal.lookupField (kv :: rest) k =
        (if kv.1 == k then some kv.2 else JVal.lookupField rest k) from rfl] at h
    split at h
    · cases h
      simp only [JVal.obj.sizeOf_spec, List.cons.sizeOf_spec]
      have : sizeOf kv.2 < sizeOf kv := by
        obtain ⟨a, b⟩ := kv
        simp only [Prod.mk.sizeOf_spec]
        omega
      omega
    · have h2 := ih h
      simp only [JVal.obj.sizeOf_spec, List.cons.sizeOf_spec] at h2 ⊢
      omega

/-- The conjunctive arm of `queryFilter`: `_.reduce(where, (result,
whereParams, key) => result && evaluateObject(object, whereParams, key),
true)`.  lodash keeps iterating after a false result, so `evaluateObject`
runs (and can throw) for every key. -/
def queryFilterAnd (db : List (String × List (String × JVal)))
    (fs : List (String × JVal)) (object : JVal) : Except MockError Bool :=
  fs.foldlM (fun acc kv => do
    let m ← evaluateObject db object kv.2 kv.1
    pure (acc && m)) true

/-- `queryFilter(where)` applied to a record.  Reading `where["$or"]`
throws on an `undefined`/`null` clause.  A truthy `$or` value is
OR-reduced with `result || queryFilter(subclause)(object)` — `||`
short-circuits, so once a sub-clause matched, later ones no longer run.
Otherwise the clause's own iteration pairs are AND-reduced; iterating a
non-object clause runs `evaluateObject` with a numeric key, whose
`key.split` throws. -/
def queryFilter (db : List (String × List (String × JVal)))
    (w : JVal) (object : JVal) : Except MockError Bool :=
  match w with
  | .undef => .error (.typeError "cannot read properties of undefined: $or")
  | .null => .error (.typeError "cannot read properties of null: $or")
  | .obj fs =>
    match hfind : JVal.lookupField fs "$or" with
    | some orClause =>
      if orClause.truthy then
        match horc : orClause with
        | .arr subs =>
          subs.attach.foldlM (fun acc sub =>
            if acc then pure true else queryFilter db sub.1 object) false
        | .obj gs =>
          gs.attach.foldlM (fun acc kv =>
            if acc then pure true else queryFilter db kv.1.2 object) false
        | _ => .error (.unmodelled "reduce over a non-collection $or clause")
      else queryFilterAnd db fs object
    | none => queryFilterAnd db fs object
  | .arr xs =>
    if xs.isEmpty then pure true
    else .error (.typeError "split is not a function")
  | .str s =>
    if s.isEmpty then pure true
    else .error (.typeError "split is not a function")
  | _ => pure true
termination_by sizeOf w
decreasing_by
  · have h1 := List.sizeOf_lt_of_mem sub.2
    have h2 := lookupField_sizeOf hfind
    simp only [JVal.arr.sizeOf_spec] at h2
    omega
  · have h1 := List.sizeOf_lt_of_mem kv.2
    have h2 := lookupField_sizeOf hfind
    have h3 : sizeOf kv.1.2 < sizeOf kv.1 := by
      obtain ⟨⟨a, b⟩, hk⟩ := kv
      simp only [Prod.mk.sizeOf_spec]
      omega
    simp only [JVal.obj.sizeOf_spec] at h2 ⊢
    omega

/-- `recursivelyMatch`: filter the class's records by the where clause.
`queryFilter(where)` is built before `_.filter` runs, so `where["$or"]`
is read — and throws on an absent clause — even when the collection is
empty.  The trailing `_.cloneDeep(matches)` is the identity in the value
model. -/
def recursivelyMatch (db : List (String × List (String × JVal)))
    (className : String) (w : JVal) : Except MockError (List JVal) :=
  let collection := (assocFind db className).getD []
  match w with
  | .undef => .error (.typeError "cannot read properties of undefined: $or")
  | .null => .error (.typeError "cannot read properties of null: $or")
  | _ =>
    (collection.map fun kv => kv.2).foldlM (fun acc r => do
      let m ← queryFilter db w r
      pure (if m then acc ++ [r] else acc)) []

/-! ## Includer -/

/-- JS property write on the object case; a write to a primitive receiver
is silently dropped (non-strict mode). -/
def setFieldOnObj (v : JVal) (key : String) (val : JVal) : JVal :=
  match v with
  | .obj fs => .obj (JVal.setField fs key val)
  | other => other

/-- `fetchObjectByPointer`: load the record a pointer names and merge it
under an `Object` type tag; `undefined` when no such record exists.  The
collection/record lookups coerce their keys to property strings as JS
does. -/
def fetchObjectByPointer (db : List (String × List (String × JVal)))
    (pointer : JVal) : Except MockError JVal := do
  let cn ← getPropE pointer "className"
  let collection := (assocFind db (jsToString cn)).getD []
  let oid ← getPropE pointer "objectId"
  match assocFind collection (jsToString oid) with
  | none => pure .undef
  | some stored =>
    pure (.obj (assignFields [("__type", .str "Object"), ("className", cn)]
      (objFieldsOf stored)))

/-- `includePaths`: walk one dot-separated include path, replacing
pointers by fetched records; mapped over every element when the field
holds an array.  In-place mutation of the (deep-copied) match becomes
functional update. -/
def includePaths (db : List (String × List (String × JVal)))
    (object : JVal) (paths : List String) : Except MockError JVal :=
  match paths with
  | [] => pure object
  | path :: rest =>
    let target := if object.truthy then object.prop path else object
    if target.truthy then
      match target with
      | .arr elems => do
        let fetchedList ← elems.mapM (fun ptr => do
          let fetched ← fetchObjectByPointer db ptr
          includePaths db fetched rest)
        pure (setFieldOnObj object path (.arr fetchedList))
      | t => do
        let t2 ←
          if (match t.prop "__type" with | .str ty => ty == "Pointer" | _ => false) then
            fetchObjectByPointer db t
          else pure t
        let t3 ← includePaths db t2 rest
        pure (setFieldOnObj object path t3)
    else pure object
termination_by paths.length
decreasing_by
  all_goals simp

/-- `queryMatchesAfterIncluding`: a falsy include clause is a no-op;
otherwise the comma-separated paths are applied in sequence to each
match. -/
def queryMatchesAfterIncluding (db : List (String × List (String × JVal)))
    (matchList : List JVal) (includeClause : JVal) :
    Except MockError (List JVal) :=
  if !includeClause.truthy then pure matchList
  else match includeClause with
    | .str s =>
      let includeClauses := s.splitOn ","
      matchList.mapM fun m =>
        includeClauses.foldlM
          (fun acc clause => includePaths db acc (clause.splitOn ".")) m
    | _ => .error (.typeError "split is not a function")

/-! ## Read handler -/

/-- A JS `v.toJSON()` call: `Date` instances render to their ISO string
(`null` when invalid); any other value here lacks a `toJSON` method. -/
def toJSONMethod (v : JVal) : Except MockError JVal :=
  match v with
  | .date ms => .ok (dateToJSONVal ms)
  | _ => .error (.typeError "toJSON is not a function")

/-- `if (match.createdAt) match.createdAt = match.createdAt.toJSON()`
(and likewise `updatedAt`). -/
def fixTimestampField (m : JVal) (k : String) : Except MockError JVal :=
  if (m.prop k).truthy then do
    let j ← toJSONMethod (m.prop k)
    pure (setFieldOnObj m k j)
  else pure m

/-- `Array.prototype.slice` index coercion (negative counts from the
end, `NaN` is 0, clamped to the length). -/
def jsSliceIndex (len : Nat) (v : JVal) : Nat :=
  match jsToNumber (toPrimitiveDefault v) with
  | .num n => if n < 0 then len - min len n.natAbs else min n.toNat len
  | _ => 0

def jsSlice (xs : List JVal) (s e : JVal) : List JVal :=
  (xs.take (jsSliceIndex xs.length e)).drop (jsSliceIndex xs.length s)

/-- `handleGetRequest`.  With an object id: point lookup, a structured
404 body for a missing record, otherwise a deep copy of the stored
record — with *no* field-mask omission.  Without an id: a truthy
`redirectClassNameForKey` routes through the module-level
`indirect`/`outOfBandResults` slots (outside the claims' scope, an
`unmodelled` outcome); otherwise match, optionally count, include, omit
the class's masked fields, convert timestamps, and slice by
skip/limit. -/
def handleGetRequest (s : MockState) (className : String)
    (objectId : Option String) (data : JVal) : Except MockError (Nat × JVal) :=
  match objectId with
  | some objId =>
    match getRecord s className objId with
    | none =>
      .ok (404, .obj [("code", .num 101), ("error", .str "object not found for update")])
    | some cur => .ok (200, cur)
  | none => do
    let redirect ← getPropE data "redirectClassNameForKey"
    if redirect.truthy then
      .error (.unmodelled "redirectClassNameForKey relation redirection")
    else do
      let ms ← recursivelyMatch s.db className (data.prop "where")
      if (data.prop "count").truthy then
        .ok (200, .obj [("count", .num ms.length)])
      else do
        let ms ← queryMatchesAfterIncluding s.db ms (data.prop "include")
        let toOmit := getMaskList s.masks className
        let ms := ms.map fun m => omitKeys m toOmit
        let ms ← ms.mapM fun m => do
          let m2 ← fixTimestampField m "createdAt"
          fixTimestampField m2 "updatedAt"
        let limit := if (data.prop "limit").truthy then data.prop "limit" else .num 100
        let start := if (data.prop "skip").truthy then data.prop "skip" else .num 0
        pure (200, .obj [("results", .arr (jsSlice ms start (jsPlus start limit)))])

/-! ## General lemmas about the store primitives -/

theorem assocFind_assocSet_self {α : Type} (l : List (String × α)) (k : String)
    (v : α) : assocFind (assocSet l k v) k = some v := by
  induction l with
  | nil => simp [assocSet, assocFind]
  | cons kv rest ih =>
    obtain ⟨a, b⟩ := kv
    by_cases h : a = k
    · subst h
      simp [assocSet, assocFind]
    · simp only [assocSet, assocFind, beq_iff_eq, if_neg h]
      exact ih

theorem assocFind_assocSet_ne {α : Type} (l : List (String × α)) (k k' : String)
    (v : α) (h : k' ≠ k) : assocFind (assocSet l k v) k' = assocFind l k' := by
  induction l with
  | nil => simp [assocSet, assocFind, beq_iff_eq, Ne.symm h]
  | cons kv rest ih =>
    obtain ⟨a, b⟩ := kv
    by_cases ha : a = k
    · subst ha
      simp [assocSet, assocFind, beq_iff_eq, Ne.symm h]
    · simp only [assocSet, assocFind, beq_iff_eq, if_neg ha]
      by_cases hk : a = k'
      · simp [hk]
      · simp [hk, ih]

theorem assocFind_filter_ne {α : Type} (l : List (String × α)) (id i : String)
    (h : i ≠ id) :
    assocFind (l.filter fun kv => kv.1 ≠ id) i = assocFind l i := by
  induction l with
  | nil => simp [assocFind]
  | cons kv rest ih =>
    obtain ⟨a, b⟩ := kv
    simp only [ne_eq, decide_not, List.filter_cons] at ih ⊢
    by_cases ha : a = id
    · subst ha
      simp only [ih]
      simp [assocFind, beq_iff_eq, Ne.symm h, ih]
    · simp only [ha, decide_eq_true_eq, if_true, Bool.not_eq_true]
      simp only [assocFind, beq_iff_eq, ih]

theorem assocFind_filter_self {α : Type} (l : List (String × α)) (id : String) :
    assocFind (l.filter fun kv => kv.1 ≠ id) id = none := by
  induction l with
  | nil => simp [assocFind]
  | cons kv rest ih =>
    obtain ⟨a, b⟩ := kv
    simp only [ne_eq, decide_not, List.filter_cons] at ih ⊢
    by_cases ha : a = id
    · subst ha
      simpa using ih
    · simp only [ha, decide_eq_true_eq, if_true, Bool.not_eq_true]
      simp only [assocFind, beq_iff_eq, ha, if_false, ih]

/-- Removing one record changes no other record's lookup. -/
theorem getRecord_removeRecord (s : MockState) (cls id c i : String) :
    getRecord { s with db := removeRecord s.db cls id } c i =
      if c = cls ∧ i = id then none else getRecord s c i := by
  unfold getRecord removeRecord
  by_cases hc : c = cls
  · subst hc
    rw [assocFind_assocSet_self]
    by_cases hi : i = id
    · subst hi
      rw [if_pos ⟨rfl, rfl⟩]
      simpa using assocFind_filter_self ((assocFind s.db c).getD []) i
    · rw [if_neg (fun hh => hi hh.2)]
      simpa using assocFind_filter_ne ((assocFind s.db c).getD []) id i hi
  · rw [assocFind_assocSet_ne _ _ _ _ hc, if_neg (fun hh => hc hh.1)]

theorem lookupField_filter_notMem (fs : List (String × JVal))
    (keys : List String) (f : String) (hf : keys.contains f = true) :
    JVal.lookupField (fs.filter fun kv => !(keys.contains kv.1)) f = none := by
  induction fs with
  | nil => rfl
  | cons kv rest ih =>
    obtain ⟨a, b⟩ := kv
    rw [List.filter_cons]
    cases hc : keys.contains a with
    | true =>
      rw [show (!true) = false from rfl, if_neg (by simp)]
      exact ih
    | false =>
      have hne : (a == f) = false := by
        rcases hbe : a == f with _ | _
        · rfl
        · rw [beq_iff_eq] at hbe
          rw [hbe, hf] at hc
          cases hc
      rw [show (!false) = true from rfl, if_pos rfl]
      rw [show JVal.lookupField ((a, b) :: List.filter
          (fun kv => !(keys.contains kv.1)) rest) f =
          (if a == f then some b else JVal.lookupField
            (List.filter (fun kv => !(keys.contains kv.1)) rest) f) from rfl]
      rw [hne, if_neg (by simp)]
      exact ih

/-- An omitted key is absent from the omitted object. -/
theorem prop_omitKeys (m : JVal) (keys : List String) (f : String)
    (hf : keys.contains f = true) : (omitKeys m keys).prop f = .undef := by
  cases m
  case obj fields =>
    show (JVal.lookupField (List.filter (fun kv => !(keys.contains kv.1)) fields) f).getD
      .undef = .undef
    rw [lookupField_filter_notMem fields keys f hf]
    rfl
  all_goals rfl

theorem lookupField_setField_ne (fs : List (String × JVal)) (k f : String)
    (v : JVal) (h : f ≠ k) :
    JVal.lookupField (JVal.setField fs k v) f = JVal.lookupField fs f := by
  induction fs with
  | nil => simp [JVal.setField, JVal.lookupField, beq_iff_eq, Ne.symm h]
  | cons kv rest ih =>
    obtain ⟨a, b⟩ := kv
    by_cases ha : a = k
    · subst ha
      simp [JVal.setField, JVal.lookupField, beq_iff_eq, Ne.symm h]
    · simp only [JVal.setField, beq_iff_eq, if_neg ha, JVal.lookupField]
      by_cases haf : a = f
      · simp [haf]
      · simp [haf, ih]

theorem prop_setFieldOnObj_ne (m : JVal) (k f : String) (v : JVal)
    (h : f ≠ k) : (setFieldOnObj m k v).prop f = m.prop f := by
  cases m <;> simp [setFieldOnObj, JVal.prop, lookupField_setField_ne _ k f v h]

/-- The timestamp conversion step never introduces a field. -/
theorem fixTimestampField_prop_undef (m m' : JVal) (k f : String)
    (hf : m.prop f = .undef) (hres : fixTimestampField m k = .ok m') :
    m'.prop f = .undef := by
  by_cases hk : f = k
  · subst hk
    rw [fixTimestampField, hf] at hres
    simp only [JVal.truthy, Bool.false_eq_true, if_false, pure, Except.pure] at hres
    cases hres
    exact hf
  · rw [fixTimestampField] at hres
    split at hres
    · cases htj : toJSONMethod (m.prop k) with
      | error e => rw [htj] at hres; simp [Except.bind] at hres
      | ok j =>
        rw [htj] at hres
        simp only [Except.bind, bind, pure, Except.pure] at hres
        cases hres
        rw [prop_setFieldOnObj_ne m k f j hk]
        exact hf
    · cases hres
      exact hf

/-- Membership through a successful `Except` `mapM`. -/
theorem mapM_mem_except {ε α β : Type} (g : α → Except ε β) :
    ∀ (l : List α) (out : List β), l.mapM g = .ok out →
      ∀ b ∈ out, ∃ a ∈ l, g a = .ok b := by
  intro l
  induction l with
  | nil =>
    intro out h b hb
    simp only [List.mapM_nil, pure, Except.pure] at h
    cases h
    cases hb
  | cons a rest ih =>
    intro out h b hb
    rw [List.mapM_cons] at h
    cases hga : g a with
    | error e => rw [hga] at h; simp [Except.bind, bind] at h
    | ok b0 =>
      rw [hga] at h
      cases hml : rest.mapM g with
      | error e =>
        rw [hml] at h
        simp [Except.bind, bind] at h
      | ok bs =>
        rw [hml] at h
        simp only [Except.bind, bind, pure, Except.pure] at h
        cases h
        rcases hb with _ | hb'
        · exact ⟨a, List.mem_cons_self a rest, hga⟩
        · obtain ⟨a', ha', hga'⟩ := ih bs hml b (by assumption)
          exact ⟨a', List.mem_cons_of_mem a ha', hga'⟩

theorem mem_jsSlice (xs : List JVal) (a b : JVal) (r : JVal)
    (h : r ∈ jsSlice xs a b) : r ∈ xs :=
  List.mem_of_mem_take (List.mem_of_mem_drop h)

/-! ## Claim C6 — cleanUp -/

/-- C6 counterexample: the claim says the single reset operation leaves the
per-class field-mask table empty, but `cleanUp` reassigns only `db` and
`hooks`; a state whose mask table holds `Store ↦ {items}` keeps it across
`cleanUp`. -/
theorem C6_counterexample :
    (cleanUp { db := [], hooks := [], masks := [("Store", ["items"])] }).masks ≠ [] := by
  intro h
  exact List.noConfusion h

/-- C6 (amended): `cleanUp` empties the Store and the hook registry, but
the field-mask table is untouched and keeps its previous contents. -/
theorem C6_cleanUp_clears_db_and_hooks (s : MockState) :
    (cleanUp s).db = [] ∧ (cleanUp s).hooks = [] ∧ (cleanUp s).masks = s.masks :=
  ⟨rfl, rfl, rfl⟩

/-! ## Claim C4 — delete on a missing id -/

/-- C4 counterexample: deleting a missing id returns a 200 success with an
empty body — not the structured 404 the claim requires. -/
theorem C4_counterexample :
    (handleDeleteRequest { db := [], hooks := [], masks := [] } "Item" "missing").2 =
      .ok (200, .obj []) ∧ (200 : Nat) ≠ 404 :=
  ⟨rfl, by decide⟩

/-- C4 (amended): a delete whose objectId names no record performs no
point-lookup check: with no beforeDelete hook it returns 200 with an empty
body and leaves every record as it was.  Read and Update point-lookups on
the same missing id do return the structured 404 result. -/
theorem C4_delete_missing_id (s : MockState) (cls id : String)
    (hmiss : getRecord s cls id = none)
    (hhook : getHook s cls "beforeDelete" = none) :
    (handleDeleteRequest s cls id).2 = .ok (200, .obj []) ∧
    (∀ c i, getRecord (handleDeleteRequest s cls id).1 c i = getRecord s c i) ∧
    (∀ data, handleGetRequest s cls (some id) data =
      .ok (404, .obj [("code", .num 101), ("error", .str "object not found for update")])) ∧
    (∀ reqData now, (handlePutRequest s cls id reqData now).2 =
      .ok (404, .obj [("code", .num 101), ("error", .str "object not found for put")])) := by
  refine ⟨?_, ?_, ?_, ?_⟩
  · simp [handleDeleteRequest, runHook, hhook]
  · intro c i
    simp only [handleDeleteRequest, runHook, hhook]
    rw [getRecord_removeRecord]
    split
    · rename_i hci
      rw [hci.1, hci.2, hmiss]
    · rfl
  · intro data
    simp [handleGetRequest, hmiss]
  · intro reqData now
    simp [handlePutRequest, hmiss]

/-! ## Claim C7 — empty and absent where clauses -/

theorem queryFilter_empty_clause (db : List (String × List (String × JVal)))
    (r : JVal) : queryFilter db (.obj []) r = .ok true := by
  rw [queryFilter]
  rfl

theorem foldlM_collect_all (db : List (String × List (String × JVal)))
    (w : JVal) (hq : ∀ r, queryFilter db w r = .ok true) :
    ∀ (l acc : List JVal),
      (l.foldlM (fun acc r => do
        let m ← queryFilter db w r
        pure (if m then acc ++ [r] else acc)) acc) = .ok (acc ++ l) := by
  intro l
  induction l with
  | nil =>
    intro acc
    rw [List.foldlM_nil]
    simp [pure, Except.pure]
  | cons r rest ih =>
    intro acc
    rw [List.foldlM_cons]
    have hih := ih (acc ++ [r])
    simp only [bind, Except.bind, pure, Except.pure] at hih ⊢
    rw [hq r]
    simp [hih]

/-- C7 counterexample: with a record present, a query whose whereClause is
absent (`undefined`) raises a `TypeError` while reading `where["$or"]`
instead of matching every record. -/
theorem C7_counterexample :
    recursivelyMatch [("Item", [("i1", .obj [("price", .num 30)])])] "Item" .undef =
      .error (.typeError "cannot read properties of undefined: $or") := rfl

/-- C7 (amended): a whereClause that is the empty mapping matches every
record of the class (the matcher returns the whole collection); an
*absent* whereClause does not match anything — building the filter reads
`where["$or"]` on `undefined` and throws a `TypeError`, even for an empty
collection. -/
theorem C7_where_clause (db : List (String × List (String × JVal)))
    (cls : String) :
    recursivelyMatch db cls (.obj []) =
      .ok (((assocFind db cls).getD []).map fun kv => kv.2) ∧
    recursivelyMatch db cls .undef =
      .error (.typeError "cannot read properties of undefined: $or") := by
  constructor
  · show (((assocFind db cls).getD []).map fun kv => kv.2).foldlM _ [] = _
    rw [foldlM_collect_all db (.obj []) (queryFilter_empty_clause db) _ []]
    simp
  · rfl

/-! ## Claim C8 — Date-shaped wire values with equal instants -/

def C8_dateWire1 : JVal :=
  .obj [("__type", .str "Date"), ("iso", .str "2020-01-01T00:00:00Z")]

def C8_dateWire2 : JVal :=
  .obj [("__type", .str "Date"), ("iso", .str "2020-01-01T00:00:00.000Z")]

/-- C8 (code bug): the two Date-shaped wire values denote the very same
instant (1577836800000 ms) through textually different iso strings, yet
`objectsAreEqual` returns `false`: the lodash deep-equality branch sees
different strings, and the dedicated date branch compares the two `Date`
objects freshly allocated by `deserializeQueryParam` with `===`, which is
reference equality and never true for two separate allocations. -/
theorem C8_same_instant_dates_unequal :
    parseISOInstant "2020-01-01T00:00:00Z" = some 1577836800000 ∧
    parseISOInstant "2020-01-01T00:00:00.000Z" = some 1577836800000 ∧
    "2020-01-01T00:00:00Z" ≠ "2020-01-01T00:00:00.000Z" ∧
    isDate C8_dateWire1 = true ∧ isDate C8_dateWire2 = true ∧
    objectsAreEqual C8_dateWire1 C8_dateWire2 = false ∧
    objectsAreEqual C8_dateWire2 C8_dateWire1 = false := by
  refine ⟨by decide, by decide, by decide, rfl, rfl, ?_, ?_⟩ <;>
    simp [objectsAreEqual, C8_dateWire1, C8_dateWire2, JVal.jsLooseEq,
      JVal.truthy, structEq, JVal.prop, JVal.lookupField, JVal.isUndef,
      isDate, jsRefEq, jsNewDate]

/-! ## Claim C9 — AddUnique deduplication -/

def C9_ptr : JVal :=
  .obj [("__type", .str "Pointer"), ("className", .str "Item"), ("objectId", .str "p1")]

def C9_addUniqueOp (objs : List JVal) : JVal :=
  .obj [("__op", .str "AddUnique"), ("objects", .arr objs)]

/-- C9 counterexample: `AddUnique` of a pointer that is deep-equal (and
equal by the engine's own equality rule) to the existing list entry still
appends it — `indexOf` uses `===`, and the wire-deserialized pointer is a
fresh heap object — so the list ends with a duplicate of a previously
existing element. -/
theorem C9_counterexample :
    applyOneOp [("items", .arr [C9_ptr])] "items" (C9_addUniqueOp [C9_ptr])
      "AddUnique" = ([("items", .arr [C9_ptr, C9_ptr])], none) ∧
    objectsAreEqual C9_ptr C9_ptr = true ∧
    structEq C9_ptr C9_ptr = true := by
  refine ⟨rfl, ?_, ?_⟩ <;>
    simp [objectsAreEqual, C9_ptr, JVal.jsLooseEq, JVal.truthy, structEq,
      JVal.lookupField]

/-- C9 (amended): `AddUnique` deduplicates by JS strict equality
(`indexOf`): an element for which some existing entry is `===`-equal
(value equality, for scalars) is skipped, but an element no entry is
`===`-equal to — in particular any composite value freshly deserialized
from the wire, however deep-equal to an existing entry — is appended. -/
theorem addUnique_fold_skips (old : List JVal) :
    ∀ (objs : List JVal), (∀ o ∈ objs, ∃ x ∈ old, JVal.jsStrictEqWire x o = true) →
      objs.foldl (fun acc o =>
        if acc.any (fun x => JVal.jsStrictEqWire x o) then acc
        else acc ++ [o]) old = old := by
  intro objs
  induction objs with
  | nil => intro _; rfl
  | cons o rest ih =>
    intro hall
    obtain ⟨x, hx, heq⟩ := hall o (List.mem_cons_self o rest)
    have hany : old.any (fun x => JVal.jsStrictEqWire x o) = true :=
      List.any_eq_true.mpr ⟨x, hx, heq⟩
    simp only [List.foldl_cons, hany, if_true]
    exact ih fun o' ho' => hall o' (List.mem_cons_of_mem o ho')

theorem addUnique_fold_appends :
    ∀ (objs acc : List JVal), (∀ o ∈ objs, ∀ x, JVal.jsStrictEqWire x o = false) →
      objs.foldl (fun acc o =>
        if acc.any (fun x => JVal.jsStrictEqWire x o) then acc
        else acc ++ [o]) acc = acc ++ objs := by
  intro objs
  induction objs with
  | nil => intro acc _; simp
  | cons o rest ih =>
    intro acc hno
    have hany : acc.any (fun x => JVal.jsStrictEqWire x o) = false := by
      rw [List.any_eq_false]
      intro x _
      simp [hno o (List.mem_cons_self o rest) x]
    simp only [List.foldl_cons, hany, Bool.false_eq_true, if_false]
    rw [ih (acc ++ [o]) (fun o' ho' x => hno o' (List.mem_cons_of_mem o ho') x)]
    simp

theorem ensureArray_of_arr (fields : List (String × JVal)) (key : String)
    (old : List JVal) (hfield : JVal.lookupField fields key = some (.arr old)) :
    ensureArray fields key = .ok fields := by
  simp [ensureArray, hfield, JVal.truthy]

theorem opObjects_addUnique (objs : List JVal) :
    opObjects (C9_addUniqueOp objs) = .ok objs := by
  simp [opObjects, C9_addUniqueOp, JVal.prop, JVal.lookupField]

/-- C9 (amended): `AddUnique` deduplicates by JS strict equality
(`indexOf`): an element for which some existing entry is `===`-equal
(value equality, for scalars) is skipped, but an element no entry is
`===`-equal to — in particular any composite value freshly deserialized
from the wire, however deep-equal to an existing entry — is appended. -/
theorem C9_addUnique_strict_equality :
    (∀ (fields : List (String × JVal)) (key : String) (old objs : List JVal),
      JVal.lookupField fields key = some (.arr old) →
      (∀ o ∈ objs, ∃ x ∈ old, JVal.jsStrictEqWire x o = true) →
      applyOneOp fields key (C9_addUniqueOp objs) "AddUnique" =
        (JVal.setField fields key (.arr old), none)) ∧
    (∀ (fields : List (String × JVal)) (key : String) (old objs : List JVal),
      JVal.lookupField fields key = some (.arr old) →
      (∀ o ∈ objs, ∀ x, JVal.jsStrictEqWire x o = false) →
      applyOneOp fields key (C9_addUniqueOp objs) "AddUnique" =
        (JVal.setField fields key (.arr (old ++ objs)), none)) := by
  constructor
  · intro fields key old objs hfield hall
    simp only [applyOneOp, ensureArray_of_arr fields key old hfield,
      opObjects_addUnique objs, hfield, Option.getD_some]
    rw [addUnique_fold_skips old objs hall]
  · intro fields key old objs hfield hnone
    simp only [applyOneOp, ensureArray_of_arr fields key old hfield,
      opObjects_addUnique objs, hfield, Option.getD_some]
    rw [addUnique_fold_appends objs old hnone]

/-- C9 witness: both arms of the amended theorem at concrete inputs — a
string already present is skipped; a deep-equal pointer is appended. -/
theorem C9_witness :
    applyOneOp [("l", .arr [.str "JS"])] "l" (C9_addUniqueOp [.str "JS"])
      "AddUnique" = (JVal.setField [("l", .arr [.str "JS"])] "l"
        (.arr [.str "JS"]), none) ∧
    applyOneOp [("l", .arr [C9_ptr])] "l" (C9_addUniqueOp [C9_ptr])
      "AddUnique" = (JVal.setField [("l", .arr [C9_ptr])] "l"
        (.arr ([C9_ptr] ++ [C9_ptr])), none) := by
  constructor
  · refine C9_addUnique_strict_equality.1 _ _ _ _ rfl ?_
    intro o ho
    rw [List.mem_singleton] at ho
    subst ho
    exact ⟨.str "JS", List.mem_singleton.mpr rfl, rfl⟩
  · refine C9_addUnique_strict_equality.2 _ _ _ _ rfl ?_
    intro o ho x
    rw [List.mem_singleton] at ho
    subst ho
    show JVal.jsStrictEqWire x (.obj _) = false
    cases x <;> rfl

/-! ## Claim C1 — hook rejection aborts without store mutation -/

theorem getRecord_setRecord_self (db : List (String × List (String × JVal)))
    (cls id : String) (r : JVal) (hooks masks) :
    getRecord { db := setRecord db cls id r, hooks := hooks, masks := masks }
      cls id = some r := by
  unfold getRecord setRecord
  rw [assocFind_assocSet_self]
  simp only [Option.getD_some]
  exact assocFind_assocSet_self _ _ _

/-- C1: a registered beforeSave/beforeDelete hook that rejects with `e`
makes the enclosing create, update, or delete fail with exactly
`e` as the rejection value, and no stored record is created, modified,
or deleted (for an update, only the class's field mask may have been
touched by the ops applied before the hook ran). -/
theorem C1_hook_rejection_preserves_store :
    (∀ (s : MockState) (cls : String) (reqData : JVal) (newId : String)
        (now : Int) (e : JVal) (h : JVal → HookResult),
      getHook s cls "beforeSave" = some h → (∀ v, h v = .reject e) →
      handlePostRequest s cls reqData newId now =
        (s, .error (.hookRejection e))) ∧
    (∀ (s : MockState) (cls id : String) (reqData : JVal) (now : Int)
        (e : JVal) (h : JVal → HookResult) (cur : JVal)
        (ops dataRest draft1 : List (String × JVal))
        (m1 : List (String × List String)),
      getRecord s cls id = some cur →
      extractOps (objFieldsOf (if reqData.truthy then reqData else .obj [])) =
        (ops, dataRest) →
      applyOps (assignFields (assignFields (objFieldsOf cur) dataRest)
        [("updatedAt", .date (some now))]) ops cls s.masks =
        (draft1, m1, none) →
      getHook s cls "beforeSave" = some h → (∀ v, h v = .reject e) →
      handlePutRequest s cls id reqData now =
        ({ s with masks := m1 }, .error (.hookRejection e)) ∧
      (∀ c i, getRecord { s with masks := m1 } c i = getRecord s c i)) ∧
    (∀ (s : MockState) (cls id : String) (e : JVal) (h : JVal → HookResult),
      getHook s cls "beforeDelete" = some h → (∀ v, h v = .reject e) →
      handleDeleteRequest s cls id = (s, .error (.hookRejection e))) := by
  refine ⟨?_, ?_, ?_⟩
  · intro s cls reqData newId now e h hh hrej
    simp [handlePostRequest, runHook, hh, hrej]
  · intro s cls id reqData now e h cur ops dataRest draft1 m1 hcur hext happ hh hrej
    constructor
    · simp only [handlePutRequest, hcur, hext, happ, runHook]
      have hh2 : getHook { s with masks := m1 } cls "beforeSave" = some h := hh
      simp [hh2, hrej]
    · intro c i
      rfl
  · intro s cls id e h hh hrej
    simp [handleDeleteRequest, runHook, hh, hrej]

def C1_hookFn : JVal → HookResult := fun _ => .reject (.str "whoah")

def C1_state : MockState :=
  { db := [("Brand", [("b1", .obj [("objectId", .str "b1"), ("name", .str "Acme")])])],
    hooks := [("Brand", [("beforeSave", C1_hookFn), ("beforeDelete", C1_hookFn)])],
    masks := [] }

/-- C1 witness: the rejecting hook at a concrete state and all three
operations. -/
theorem C1_witness :
    handlePostRequest C1_state "Brand" (.obj [("name", .str "x")]) "b2" 5000 =
      (C1_state, .error (.hookRejection (.str "whoah"))) ∧
    (handlePutRequest C1_state "Brand" "b1" (.obj [("name", .str "x")]) 5000).2 =
      .error (.hookRejection (.str "whoah")) ∧
    handleDeleteRequest C1_state "Brand" "b1" =
      (C1_state, .error (.hookRejection (.str "whoah"))) := by
  refine ⟨?_, ?_, ?_⟩
  · exact C1_hook_rejection_preserves_store.1 C1_state "Brand" _ "b2" 5000 _
      C1_hookFn rfl (fun v => rfl)
  · have hput := (C1_hook_rejection_preserves_store.2.1 C1_state "Brand" "b1"
      (.obj [("name", .str "x")]) 5000 (.str "whoah") C1_hookFn _ _ _ _ _
      rfl rfl rfl rfl (fun v => rfl)).1
    rw [hput]
  · exact C1_hook_rejection_preserves_store.2.2 C1_state "Brand" "b1" _
      C1_hookFn rfl (fun v => rfl)

/-! ## Claim C2 — beforeSave override on update -/

theorem objFieldsOf_obj (fs : List (String × JVal)) : objFieldsOf (.obj fs) = fs :=
  rfl

def C2_overrideVal : JVal := .obj [("objectId", .str "o1"), ("foo", .num 999)]

def C2_hookFn : JVal → HookResult := fun _ => .resolve C2_overrideVal

def C2_state : MockState :=
  { db := [("A", [("o1", .obj [("objectId", .str "o1"), ("foo", .num 1)])])],
    hooks := [("A", [("beforeSave", C2_hookFn)])],
    masks := [] }

/-- C2 counterexample: the hook replaces the draft with `foo = 999`, yet
the record committed by the update keeps the pre-hook merged draft's
`foo = 2`; the replacement is not adopted into the Store. -/
theorem C2_counterexample :
    getRecord (handlePutRequest C2_state "A" "o1" (.obj [("foo", .num 2)]) 7000).1
      "A" "o1" = some (.obj [("objectId", .str "o1"), ("foo", .num 2),
        ("updatedAt", .date (some 7000))]) ∧
    JVal.prop (.obj [("objectId", .str "o1"), ("foo", .num 2),
      ("updatedAt", .date (some 7000))]) "foo" = .num 2 ∧
    C2_overrideVal.prop "foo" = .num 999 ∧
    (JVal.num 2) ≠ (JVal.num 999) := by
  refine ⟨rfl, rfl, rfl, ?_⟩
  intro hcontra
  injection hcontra with h2
  exact absurd h2 (by decide)

/-- C2 (amended): when the beforeSave hook of an update resolves with a
truthy replacement value, the replacement shapes only the response body
(identity fields and masked fields omitted, `updatedAt` re-attached); the
record committed to the Store is the pre-hook merged draft, unchanged by
the hook. -/
theorem C2_update_override_response_only
    (s : MockState) (cls id : String) (reqData : JVal) (now : Int)
    (cur v : JVal) (h : JVal → HookResult)
    (ops dataRest draft1 : List (String × JVal))
    (m1 : List (String × List String))
    (hcur : getRecord s cls id = some cur)
    (hext : extractOps (objFieldsOf (if reqData.truthy then reqData else .obj [])) =
      (ops, dataRest))
    (happ : applyOps (assignFields (assignFields (objFieldsOf cur) dataRest)
      [("updatedAt", .date (some now))]) ops cls s.masks = (draft1, m1, none))
    (hh : getHook s cls "beforeSave" = some h)
    (hov : h (.obj (JVal.setField draft1 "className" (.str cls))) = .resolve v)
    (htr : v.truthy = true) :
    handlePutRequest s cls id reqData now =
      ({ s with db := setRecord s.db cls id (.obj draft1), masks := m1 },
        .ok (200, .obj (JVal.setField (objFieldsOf (omitKeys (omitKeys v ["ACL"])
          (["createdAt", "objectId"] ++ getMaskList m1 cls)))
          "updatedAt" (.date (some now))))) ∧
    getRecord (handlePutRequest s cls id reqData now).1 cls id =
      some (.obj draft1) := by
  have hh2 : getHook { s with masks := m1 } cls "beforeSave" = some h := hh
  have hmain : handlePutRequest s cls id reqData now =
      ({ s with db := setRecord s.db cls id (.obj draft1), masks := m1 },
        .ok (200, .obj (JVal.setField (objFieldsOf (omitKeys (omitKeys v ["ACL"])
          (["createdAt", "objectId"] ++ getMaskList m1 cls)))
          "updatedAt" (.date (some now))))) := by
    simp only [handlePutRequest, hcur, hext, happ, runHook, hh2]
    simp only [objFieldsOf_obj, hov, htr, Bool.and_true, beq_self_eq_true, if_true]
  refine ⟨hmain, ?_⟩
  rw [hmain]
  exact getRecord_setRecord_self s.db cls id (.obj draft1) _ _

/-- C2 witness: the amended theorem at the counterexample's concrete
state. -/
theorem C2_witness :
    handlePutRequest C2_state "A" "o1" (.obj [("foo", .num 2)]) 7000 =
      (⟨setRecord C2_state.db "A" "o1"
          (.obj [("objectId", .str "o1"), ("foo", .num 2),
            ("updatedAt", .date (some 7000))]), C2_state.hooks, []⟩,
        .ok (200, .obj (JVal.setField (objFieldsOf (omitKeys
          (omitKeys C2_overrideVal ["ACL"])
          (["createdAt", "objectId"] ++ getMaskList [] "A")))
          "updatedAt" (.date (some 7000))))) := by
  exact (C2_update_override_response_only C2_state "A" "o1" (.obj [("foo", .num 2)])
    7000 _ C2_overrideVal C2_hookFn _ _ _ _ rfl rfl rfl rfl rfl rfl).1

/-! ## Claim C5 — unknown update operator -/

def C5_relOp : JVal := .obj [("__op", .str "AddRelation"), ("objects", .arr [C9_ptr])]

def C5_ops : List (String × JVal) := [("rel", C5_relOp), ("bad", .obj [("__op", .str "Bogus")])]

/-- C5 counterexample: an AddRelation op preceding the unknown operator
has already mutated the draft (`rel` appears, previously absent) and
extended the class's field mask by the time `applyOps` throws
`Unknown update operator:bad`. -/
theorem C5_counterexample :
    applyOps [("x", .num 5)] C5_ops "A" [] =
      ([("x", .num 5), ("rel", .arr [C9_ptr])], [("A", ["rel"])],
        some (.jsError "Unknown update operator:bad")) ∧
    JVal.lookupField [("x", .num 5)] "rel" = none :=
  ⟨rfl, rfl⟩

/-- C5 (amended): an update whose op application fails (unknown operator,
or an array op on a non-array field) is rejected as a whole and the
stored records are untouched — the ops preceding the failure mutate only
the scratch draft, which is discarded, and (for relation ops) the class's
field mask, which persists. -/
theorem C5_failed_ops_leave_records
    (s : MockState) (cls id : String) (reqData : JVal) (now : Int)
    (cur : JVal) (ops dataRest d1 : List (String × JVal))
    (m1 : List (String × List String)) (e : MockError)
    (hcur : getRecord s cls id = some cur)
    (hext : extractOps (objFieldsOf (if reqData.truthy then reqData else .obj [])) =
      (ops, dataRest))
    (happ : applyOps (assignFields (assignFields (objFieldsOf cur) dataRest)
      [("updatedAt", .date (some now))]) ops cls s.masks = (d1, m1, some e)) :
    handlePutRequest s cls id reqData now = ({ s with masks := m1 }, .error e) ∧
    (∀ c i, getRecord { s with masks := m1 } c i = getRecord s c i) := by
  constructor
  · simp only [handlePutRequest, hcur, hext, happ]
  · intro c i
    rfl

def C5_victimState : MockState :=
  { db := [("A", [("a1", .obj [("objectId", .str "a1")])])], hooks := [], masks := [] }

/-- C5 witness: the amended theorem at a concrete update carrying an
AddRelation op followed by an unknown operator. -/
theorem C5_witness :
    handlePutRequest C5_victimState "A" "a1"
      (.obj [("rel", C5_relOp), ("bad", .obj [("__op", .str "Bogus")])]) 9000 =
      ({ C5_victimState with masks := [("A", ["rel"])] },
        .error (.jsError "Unknown update operator:bad")) ∧
    getRecord { C5_victimState with masks := [("A", ["rel"])] } "A" "a1" =
      getRecord C5_victimState "A" "a1" := by
  have hmain := C5_failed_ops_leave_records C5_victimState "A" "a1"
    (.obj [("rel", C5_relOp), ("bad", .obj [("__op", .str "Bogus")])]) 9000
    _ _ _ _ _ _ rfl rfl rfl
  exact ⟨hmain.1, hmain.2 "A" "a1"⟩

/-! ## Claim C10 — equality by shared objectId across classes -/

/-- C10: any two objects both carrying the same string under `objectId` —
whatever their `className` or other fields — are equal under
`objectsAreEqual`; consequently they satisfy `$eq`, are members for
`$in`, and are excluded by `$ne`.  (Values of other shapes cannot carry a
string `objectId`, so the object form is the general case.) -/
theorem C10_objectId_equality (db : List (String × List (String × JVal)))
    (f1 f2 : List (String × JVal)) (sid : String)
    (hid1 : JVal.prop (.obj f1) "objectId" = .str sid)
    (hid2 : JVal.prop (.obj f2) "objectId" = .str sid) :
    objectsAreEqual (.obj f1) (.obj f2) = true ∧
    applyQueryOperator db "$eq" (.obj f1) (.obj f2) = .ok true ∧
    applyQueryOperator db "$ne" (.obj f1) (.obj f2) = .ok false ∧
    applyQueryOperator db "$in" (.obj f1) (.arr [.obj f2]) = .ok true := by
  have hmain : objectsAreEqual (.obj f1) (.obj f2) = true := by
    rw [objectsAreEqual]
    cases hse : structEq (.obj f1) (.obj f2) with
    | true =>
      simp [JVal.jsLooseEq, JVal.truthy, hse]
    | false =>
      simp [JVal.jsLooseEq, JVal.truthy, hse, hid1, hid2, JVal.isUndef]
    all_goals exact fun xs h => JVal.noConfusion h
  refine ⟨hmain, ?_, ?_, ?_⟩ <;>
    simp [applyQueryOperator, lodashValues, hmain]

/-- C10 witness: two Pointers to different classes sharing an objectId
compare equal and behave so under the query operators. -/
theorem C10_witness :
    objectsAreEqual
      (.obj [("__type", .str "Pointer"), ("className", .str "A"), ("objectId", .str "x1")])
      (.obj [("__type", .str "Pointer"), ("className", .str "B"), ("objectId", .str "x1")]) = true ∧
    applyQueryOperator []
      "$eq"
      (.obj [("__type", .str "Pointer"), ("className", .str "A"), ("objectId", .str "x1")])
      (.obj [("__type", .str "Pointer"), ("className", .str "B"), ("objectId", .str "x1")]) = .ok true ∧
    applyQueryOperator []
      "$ne"
      (.obj [("__type", .str "Pointer"), ("className", .str "A"), ("objectId", .str "x1")])
      (.obj [("__type", .str "Pointer"), ("className", .str "B"), ("objectId", .str "x1")]) = .ok false ∧
    applyQueryOperator []
      "$in"
      (.obj [("__type", .str "Pointer"), ("className", .str "A"), ("objectId", .str "x1")])
      (.arr [.obj [("__type", .str "Pointer"), ("className", .str "B"), ("objectId", .str "x1")]]) = .ok true :=
  C10_objectId_equality [] _ _ "x1" rfl rfl

/-! ## Claim C3 — relation fields and the field mask -/

theorem lookupField_setField_self (fs : List (String × JVal)) (k : String)
    (v : JVal) : JVal.lookupField (JVal.setField fs k v) k = some v := by
  induction fs with
  | nil => simp [JVal.setField, JVal.lookupField]
  | cons kv rest ih =>
    obtain ⟨a, b⟩ := kv
    by_cases ha : a = k
    · subst ha
      simp [JVal.setField, JVal.lookupField]
    · simp only [JVal.setField, beq_iff_eq, if_neg ha, JVal.lookupField]
      simp [ha, ih]

def C3_state0 : MockState :=
  { db := [("Store", [("s1", .obj [("objectId", .str "s1"), ("name", .str "x")])])],
    hooks := [], masks := [] }

def C3_state1 : MockState :=
  (handlePutRequest C3_state0 "Store" "s1" (.obj [("items", C5_relOp)]) 3000).1

/-- C3 counterexample: after an update whose AddRelation touched `items`
(the class mask records the field), a point-lookup read of the same
record still returns the raw relation field — the mask is applied only on
the query path, never on the fetch-by-objectId path. -/
theorem C3_counterexample :
    getMaskList C3_state1.masks "Store" = ["items"] ∧
    handleGetRequest C3_state1 "Store" (some "s1") (.obj []) =
      .ok (200, .obj [("objectId", .str "s1"), ("name", .str "x"),
        ("updatedAt", .date (some 3000)), ("items", .arr [C9_ptr])]) ∧
    JVal.prop (.obj [("objectId", .str "s1"), ("name", .str "x"),
      ("updatedAt", .date (some 3000)), ("items", .arr [C9_ptr])]) "items" =
      .arr [C9_ptr] ∧
    (JVal.arr [C9_ptr]) ≠ .undef := by
  refine ⟨rfl, rfl, rfl, ?_⟩
  intro hcontra
  exact JVal.noConfusion hcontra

/-- C3 (amended): an AddRelation op records its field in the class's mask,
and a masked field never appears in the records of a *query* (find)
response — but point-lookup responses return the stored record unmasked
(see the counterexample). -/
theorem C3_masked_fields_hidden_from_queries :
    (∀ (draft : List (String × JVal)) (k cls : String)
        (masks : List (String × List String)) (objs : List JVal),
      JVal.lookupField draft k = none →
      applyOps draft [(k, .obj [("__op", .str "AddRelation"),
        ("objects", .arr objs)])] cls masks =
        (JVal.setField (JVal.setField draft k (.arr [])) k (.arr objs),
          addMaskKey masks cls k, none) ∧
      (getMaskList (addMaskKey masks cls k) cls).contains k = true) ∧
    (∀ (s : MockState) (cls f : String) (data : JVal) (st : Nat)
        (body : JVal) (rs : List JVal),
      f ∈ getMaskList s.masks cls →
      handleGetRequest s cls none data = .ok (st, body) →
      body.prop "results" = .arr rs →
      ∀ r ∈ rs, r.prop f = .undef) := by
  constructor
  · intro draft k cls masks objs hnone
    constructor
    · simp only [applyOps, JVal.prop, JVal.lookupField, applyOneOp, ensureArray,
        hnone, Option.getD_none, JVal.truthy, opObjects]
      simp [lookupField_setField_self, UPDATE_OPERATOR_NAMES, MASKED_UPDATE_OPS]
    · unfold getMaskList addMaskKey
      rw [assocFind_assocSet_self]
      simp only [Option.getD_some]
      by_cases hc : k ∈ getMaskList masks cls
      · simp [hc]
      · simp [hc]
  · intro s cls f data st body rs hf hres hprop r hr
    simp only [handleGetRequest, bind, Except.bind, pure, Except.pure] at hres
    split at hres
    next heq => exact absurd hres (by simp)
    next redirect heq =>
      split at hres
      next => exact absurd hres (by simp)
      next htr =>
        split at hres
        next heqm => exact absurd hres (by simp)
        next ms heqm =>
          split at hres
          next hcnt =>
            rw [show (Except.ok (200, JVal.obj [("count", JVal.num ms.length)]) :
              Except MockError (Nat × JVal)) = .ok (st, body) ↔
              (200 = st ∧ JVal.obj [("count", JVal.num ms.length)] = body) from by
                simp] at hres
            obtain ⟨hst, hbody⟩ := hres
            rw [← hbody] at hprop
            simp [JVal.prop, JVal.lookupField] at hprop
          next hcnt =>
            split at hres
            next heqi => exact absurd hres (by simp)
            next ms2 heqi =>
              split at hres
              next heqf => exact absurd hres (by simp)
              next ms3 heqf =>
                rw [show ∀ (x y : Nat × JVal), (Except.ok x :
                  Except MockError (Nat × JVal)) = .ok y ↔ x = y from by simp] at hres
                rw [Prod.mk.injEq] at hres
                obtain ⟨hst, hbody⟩ := hres
                rw [← hbody] at hprop
                simp only [JVal.prop, JVal.lookupField, beq_self_eq_true, if_true,
                  Option.getD_some, JVal.arr.injEq] at hprop
                rw [← hprop] at hr
                have hr3 : r ∈ ms3 := mem_jsSlice _ _ _ _ hr
                obtain ⟨a, ha, hga⟩ := mapM_mem_except _ _ _ heqf r hr3
                obtain ⟨m0, hm0, rfl⟩ := List.mem_map.mp ha
                have hundef : (omitKeys m0 (getMaskList s.masks cls)).prop f = .undef :=
                  prop_omitKeys _ _ _ (List.elem_eq_true_of_mem hf)
                cases hfx1 : fixTimestampField (omitKeys m0 (getMaskList s.masks cls))
                    "createdAt" with
                | error e => rw [hfx1] at hga; exact absurd hga (by simp)
                | ok m2 =>
                  rw [hfx1] at hga
                  have h1 := fixTimestampField_prop_undef _ _ _ _ hundef hfx1
                  exact fixTimestampField_prop_undef _ _ _ _ h1 hga

def C3_storedRec : JVal :=
  .obj [("objectId", .str "s1"), ("name", .str "x"),
    ("updatedAt", .date (some 3000)), ("items", .arr [C9_ptr])]

def C3_findRec : JVal :=
  .obj [("objectId", .str "s1"), ("name", .str "x"),
    ("updatedAt", .str "1970-01-01T00:00:03.000Z")]

/-- C3 witness: both arms of the amended theorem at the concrete state of
the counterexample — the AddRelation populates the mask, and the find
response's record lacks the masked `items` field. -/
theorem C3_witness :
    applyOps [("objectId", .str "s1")] [("items", .obj [("__op", .str "AddRelation"),
        ("objects", .arr [C9_ptr])])] "Store" [] =
      (JVal.setField (JVal.setField [("objectId", .str "s1")] "items" (.arr []))
        "items" (.arr [C9_ptr]), addMaskKey [] "Store" "items", none) ∧
    C3_findRec.prop "items" = .undef := by
  constructor
  · exact (C3_masked_fields_hidden_from_queries.1
      [("objectId", .str "s1")] "items" "Store" [] [C9_ptr] rfl).1
  · have hrm : recursivelyMatch C3_state1.db "Store"
        ((JVal.obj [("where", JVal.obj [])]).prop "where") = .ok [C3_storedRec] := by
      rw [show (JVal.obj [("where", JVal.obj [])]).prop "where" = .obj [] from rfl]
      show List.foldlM _ [] _ = _
      rw [foldlM_collect_all C3_state1.db (.obj [])
        (queryFilter_empty_clause C3_state1.db) _ []]
      rfl
    have hbody : handleGetRequest C3_state1 "Store" none
        (.obj [("where", .obj [])]) = .ok (200, .obj [("results", .arr [C3_findRec])]) := by
      simp only [handleGetRequest, bind, Except.bind, pure, Except.pure, hrm]
      rfl
    exact C3_masked_fields_hidden_from_queries.2 C3_state1 "Store" "items"
      (.obj [("where", .obj [])]) 200 (.obj [("results", .arr [C3_findRec])])
      [C3_findRec]
      (by rw [show getMaskList C3_state1.masks "Store" = ["items"] from rfl]; simp)
      hbody rfl C3_findRec (by simp)

def C4_state : MockState :=
  { db := [("Item", [("i1", .obj [("objectId", .str "i1")])])], hooks := [], masks := [] }

/-- C4 witness: the amended theorem at a concrete state and missing id. -/
theorem C4_witness :
    (handleDeleteRequest C4_state "Item" "zz").2 = .ok (200, .obj []) ∧
    getRecord (handleDeleteRequest C4_state "Item" "zz").1 "Item" "i1" =
      getRecord C4_state "Item" "i1" ∧
    handleGetRequest C4_state "Item" (some "zz") (.obj []) =
      .ok (404, .obj [("code", .num 101), ("error", .str "object not found for update")]) ∧
    (handlePutRequest C4_state "Item" "zz" (.obj []) 1000).2 =
      .ok (404, .obj [("code", .num 101), ("error", .str "object not found for put")]) := by
  have h := C4_delete_missing_id C4_state "Item" "zz" rfl rfl
  exact ⟨h.1, h.2.1 "Item" "i1", h.2.2.1 (.obj []), h.2.2.2 (.obj []) 1000⟩
